import Mathlib

/-!
Verification of the ll-parsing library (src/index.ts): a character-level
streaming lexer (`createSimpleLexer`) and a stack-driven LL parse engine
(`createLLParser`).  The TypeScript source is embedded shallowly:

* regex tests on single characters become `Char → Bool` predicates;
* the async generator lexer becomes a pure fold over a list of chunks
  (each chunk a `List Char`), returning the emitted `LexedItem`s;
* the parse engine's `for await` loop becomes structural recursion over a
  `List LexedItem`; its inner `while` expansion loop, which may diverge for
  adversarial rule tables, takes a fuel parameter consumed only when a
  nonterminal is expanded;
* JavaScript exceptions (`throw new Error(...)`) become the `.error` case
  of an `Except Fatal` result; the mutable `result` object is threaded
  through rule invocations functionally.
-/

/-- Position of a lexed item: `{index, line, inlineIndex}` from the source. -/
structure Position where
  index : Nat
  line : Nat
  inlineIndex : Nat
deriving Repr, DecidableEq

/-- One emitted lexical unit: `{tokens, index, line, inlineIndex}`. -/
structure LexedItem where
  tokens : List String
  index : Nat
  line : Nat
  inlineIndex : Nat
deriving Repr, DecidableEq

/-- The `ParseError` record (`parseError` constructor in the source); the
`[parseErrorSym]: true` tag is represented by membership in this type. -/
structure ParseError where
  message : String
  token : String
  index : Nat
  line : Nat
  inlineIndex : Nat
deriving Repr, DecidableEq

/-- A stack entry is a nonterminal symbol (JS `symbol`, here an opaque `Nat`
identity), a terminal literal (JS `string`), or an embedded `ParseError`. -/
inductive StackEntry where
  | nt (s : Nat)
  | tm (t : String)
  | err (e : ParseError)
deriving Repr, DecidableEq

/-- The `onError` policy of `ParseOptions`. -/
inductive OnError where
  | stop
  | throw
  | continue
deriving Repr, DecidableEq

/-- `ParseOptions` (the `debug` flag only controls console logging and is
omitted from the embedding). -/
structure ParseOptions where
  onError : OnError
deriving Repr, DecidableEq

/-- A JS exception escaping `parse`: a missing rule (`No rule for ...`), an
error escalated by the `"throw"` policy, or exhaustion of the expansion
fuel (the embedding's rendering of a diverging expansion loop). -/
inductive Fatal where
  | noRule (s : Nat)
  | thrown (message : String)
  | outOfFuel
deriving Repr, DecidableEq

/-- The record returned by `parse`: `{stack, errors, result, index}`. -/
structure ParseOutcome (ρ : Type) where
  stack : List StackEntry
  errors : List ParseError
  result : ρ
  index : Nat
deriving Repr, DecidableEq

/-- The rule table: `symbol → (token, position, result) → stack fragment`.
A rule returns the fragment spliced onto the stack front and the (possibly
updated) result. -/
def Rules (ρ : Type) := Nat → Option (List String → Position → ρ → List StackEntry × ρ)

/-- JS `tokens[0]` as rendered into the error message and the error's
`token` field: `undefined` prints as the string `undefined`. -/
def tok0Str (tokens : List String) : String := tokens.headD "undefined"

/-- What the expansion loop can leave in `tos`: a terminal string, an
embedded `ParseError`, or `undefined` (the stack was empty). -/
inductive Front where
  | tm (t : String)
  | err (e : ParseError)
  | undef
deriving Repr, DecidableEq

/-- One settled expansion: the popped non-nonterminal front, the remaining
stack, and the threaded result. -/
structure ExpandOut (ρ : Type) where
  front : Front
  stack : List StackEntry
  result : ρ

/-- The inner `while ((tos = stack.shift()) && typeof tos === "symbol")`
loop of `parse`: pop the front while it is a nonterminal, look up its rule
(fatal `noRule` when absent, checked before fuel as in the source where no
fuel notion exists), splice the returned fragment onto the front, repeat. -/
def expand (rules : Rules ρ) (fuel : Nat) (stack : List StackEntry)
    (tokens : List String) (pos : Position) (r : ρ) : Except Fatal (ExpandOut ρ) :=
  match stack with
  | [] => .ok ⟨.undef, [], r⟩
  | .tm t :: rest => .ok ⟨.tm t, rest, r⟩
  | .err e :: rest => .ok ⟨.err e, rest, r⟩
  | .nt s :: rest =>
    match rules s with
    | none => .error (.noRule s)
    | some rule =>
      match fuel with
      | 0 => .error .outOfFuel
      | fuel' + 1 =>
        let out := rule tokens pos r
        expand rules fuel' (out.1 ++ rest) tokens pos out.2

/-- The `for await (const {tokens, index, line, inlineIndex} of lexed)` loop
of `parse`, with the accumulated `errors`, the threaded `result` and the
running `lastIndex`.  On a terminal front, mismatch against `tokens[0]`
builds a `ParseError` and applies the policy; an embedded `ParseError`
front applies the policy directly; an empty stack performs no check.
Under `"continue"` the source constructs the error but never appends it. -/
def parseLoop (rules : Rules ρ) (opts : ParseOptions) (fuel : Nat) :
    List LexedItem → List StackEntry → List ParseError → ρ → Nat →
    Except Fatal (ParseOutcome ρ)
  | [], stack, errors, r, lastIndex => .ok ⟨stack, errors, r, lastIndex⟩
  | item :: rest, stack, errors, r, _lastIndex =>
    match expand rules fuel stack item.tokens ⟨item.index, item.line, item.inlineIndex⟩ r with
    | .error f => .error f
    | .ok out =>
      match out.front with
      | .tm t =>
        if item.tokens.head? = some t then
          parseLoop rules opts fuel rest out.stack errors out.result item.index
        else
          let got := tok0Str item.tokens
          let e : ParseError :=
            ⟨"Expected '" ++ t ++ "' but got '" ++ got ++ "'.",
              got, item.index, item.line, item.inlineIndex⟩
          match opts.onError with
          | .stop => .ok ⟨out.stack, errors ++ [e], out.result, item.index⟩
          | .throw => .error (.thrown e.message)
          | .continue => parseLoop rules opts fuel rest out.stack errors out.result item.index
      | .err e =>
        match opts.onError with
        | .stop => .ok ⟨out.stack, errors ++ [e], out.result, item.index⟩
        | .throw => .error (.thrown e.message)
        | .continue => parseLoop rules opts fuel rest out.stack errors out.result item.index
      | .undef => parseLoop rules opts fuel rest out.stack errors out.result item.index

/-- `createLLParser(rules, initStack).parse(lexed, result, options)`:
a fresh stack from `initStack()`, a fresh error list, `lastIndex = 0`. -/
def createLLParser (rules : Rules ρ) (initStack : Unit → List StackEntry)
    (lexed : List LexedItem) (result : ρ) (opts : ParseOptions) (fuel : Nat) :
    Except Fatal (ParseOutcome ρ) :=
  parseLoop rules opts fuel lexed (initStack ()) [] result 0

/-! ## The lexer -/

/-- `createSimpleLexer`'s configuration.  `separatorRegex.test(char)` and
`newlineRegex.test(char)` are embedded as boolean character predicates
(`newlineP` already carries the `/^\r?\n$/` default when the caller passes
none); `escapeChar` keeps its `|| "\\"` default via `Option.getD`. -/
structure LexerConfig where
  separatorP : Char → Bool
  newlineP : Char → Bool
  useQuote : Bool
  useEscape : Bool
  escapeChar : Option Char

/-- The lexer's running state: the pending `token` buffer, the
`isQuoting`/`isEscaping` flags, and the `index`/`line`/`inlineIndex`
counters. -/
structure LexState where
  token : String
  isQuoting : Bool
  isEscaping : Bool
  index : Nat
  line : Nat
  inlineIndex : Nat
deriving Repr, DecidableEq

/-- The state at the top of the generator body. -/
def initLexState : LexState := ⟨"", false, false, 0, 0, 0⟩

/-- The body of the character loop: increment `index`/`inlineIndex`, branch
on escape / escape-arm / quote / separator / plain append (the separator
branch flushing a non-empty pending token and emitting the separator as its
own item), then the unconditional newline check. -/
def lexChar (cfg : LexerConfig) (st : LexState) (c : Char) : LexState × List LexedItem :=
  let idx := st.index + 1
  let il := st.inlineIndex + 1
  let step : LexState × List LexedItem :=
    if cfg.useEscape && st.isEscaping then
      (⟨st.token.push c, st.isQuoting, false, idx, st.line, il⟩, [])
    else if cfg.useEscape && (c == cfg.escapeChar.getD '\\') then
      (⟨st.token, st.isQuoting, true, idx, st.line, il⟩, [])
    else if cfg.useQuote && st.isQuoting then
      if c == '"' then
        (⟨st.token.push '"', false, st.isEscaping, idx, st.line, il⟩, [])
      else
        (⟨st.token.push c, st.isQuoting, st.isEscaping, idx, st.line, il⟩, [])
    else if cfg.separatorP c then
      (⟨"", st.isQuoting, st.isEscaping, idx, st.line, il⟩,
        (if st.token = "" then [] else [⟨[st.token], idx - 1, st.line, il - 1⟩])
          ++ [⟨[String.singleton c], idx, st.line, il⟩])
    else
      (⟨st.token.push c, st.isQuoting, st.isEscaping, idx, st.line, il⟩, [])
  if cfg.newlineP c then
    (⟨step.1.token, step.1.isQuoting, step.1.isEscaping, step.1.index, step.1.line + 1, 0⟩,
      step.2)
  else
    step

/-- The character loop over one chunk's characters. -/
def lexChars (cfg : LexerConfig) (st : LexState) : List Char → LexState × List LexedItem
  | [] => (st, [])
  | c :: cs =>
    let s1 := lexChar cfg st c
    let s2 := lexChars cfg s1.1 cs
    (s2.1, s1.2 ++ s2.2)

/-- The end-of-chunk flush: `if (token !== "") yield {...}`.  The source
does not clear `token` here, so the state is returned unchanged. -/
def chunkFlush (st : LexState) : List LexedItem :=
  if st.token = "" then [] else [⟨[st.token], st.index, st.line, st.inlineIndex⟩]

/-- One chunk of the `for await (const buf of stream)` loop, with each
emitted item tagged: `false` for items emitted inside the character loop,
`true` for the end-of-chunk flush item. -/
def lexChunkT (cfg : LexerConfig) (st : LexState) (chunk : List Char) :
    LexState × List (Bool × LexedItem) :=
  let s1 := lexChars cfg st chunk
  (s1.1, s1.2.map (fun it => (false, it)) ++ (chunkFlush s1.1).map (fun it => (true, it)))

/-- The whole stream loop, over a list of chunks, with tagged items. -/
def lexStreamT (cfg : LexerConfig) (st : LexState) :
    List (List Char) → LexState × List (Bool × LexedItem)
  | [] => (st, [])
  | chunk :: rest =>
    let s1 := lexChunkT cfg st chunk
    let s2 := lexStreamT cfg s1.1 rest
    (s2.1, s1.2 ++ s2.2)

/-- `createSimpleLexer(config)(stream)`: the sequence of `LexedItem`s the
generator yields for the given chunked stream. -/
def createSimpleLexer (cfg : LexerConfig) (chunks : List (List Char)) : List LexedItem :=
  (lexStreamT cfg initLexState chunks).2.map Prod.snd

/-- The default `/^\r?\n$/` newline regex applied to one character: it
matches exactly the single character `\n`. -/
def defaultNewlineP (c : Char) : Bool := c == '\n'

/-! ## Concrete instances used by the claims -/

/-- A separator matching `,` or a space (the `,`/whitespace separator of the
quoting scenario), quoting enabled. -/
def cfgQ : LexerConfig :=
  ⟨fun c => c == ',' || c == ' ', defaultNewlineP, true, false, none⟩

/-- Comma separator, escaping enabled with the default escape character. -/
def cfgE : LexerConfig :=
  ⟨fun c => c == ',', defaultNewlineP, false, true, none⟩

/-- Comma separator, no quoting, no escaping. -/
def cfgB : LexerConfig :=
  ⟨fun c => c == ',', defaultNewlineP, false, false, none⟩

/-- The rule table `{ S -> ["a","b"] }` with `S` embedded as symbol `0`. -/
def rulesAB : Rules Unit := fun s =>
  if s = 0 then some (fun _ _ r => ([.tm "a", .tm "b"], r)) else none

/-- Lexed item `["a"]` at index 1. -/
def itemA : LexedItem := ⟨["a"], 1, 0, 1⟩

/-- Lexed item `["x"]` at index 2. -/
def itemX : LexedItem := ⟨["x"], 2, 0, 2⟩

/-- Lexed item `["b"]` at index 3. -/
def itemB3 : LexedItem := ⟨["b"], 3, 0, 3⟩

/-- A lexer state with escaping armed, as reached after consuming `a\`. -/
def stArm : LexState := ⟨"a", false, true, 2, 0, 2⟩

/-! ## Lexer lemmas -/

/-- `lexChars` over a concatenation runs the two halves in sequence. -/
theorem lexChars_append (cfg : LexerConfig) (a b : List Char) (st : LexState) :
    lexChars cfg st (a ++ b) =
      ((lexChars cfg (lexChars cfg st a).1 b).1,
        (lexChars cfg st a).2 ++ (lexChars cfg (lexChars cfg st a).1 b).2) := by
  induction a generalizing st with
  | nil => simp [lexChars]
  | cons c cs ih => simp [lexChars, ih, List.append_assoc]

/-- Filtering the non-flush tag keeps every character-loop item. -/
theorem filter_false_tag (l : List LexedItem) :
    ((l.map (fun it => (false, it))).filter (fun p => !p.1)).map Prod.snd = l := by
  induction l with
  | nil => rfl
  | cons x xs ih => simpa using ih

/-- Filtering the non-flush tag drops every chunk-end flush item. -/
theorem filter_true_tag (l : List LexedItem) :
    (l.map (fun it => (true, it))).filter (fun p => !p.1) = [] := by
  induction l with
  | nil => rfl
  | cons x xs ih => simp [ih]

/-- The stream loop reaches the same final state as one pass of the
character loop over the joined chunks, and its character-loop items (the
chunk-end flushes filtered out) are exactly that pass's items. -/
theorem lexStreamT_join (cfg : LexerConfig) :
    ∀ (chunks : List (List Char)) (st : LexState),
      (lexStreamT cfg st chunks).1 = (lexChars cfg st chunks.flatten).1 ∧
      ((lexStreamT cfg st chunks).2.filter (fun p => !p.1)).map Prod.snd
        = (lexChars cfg st chunks.flatten).2 := by
  intro chunks
  induction chunks with
  | nil => intro st; exact ⟨rfl, rfl⟩
  | cons ch rest ih =>
    intro st
    have hApp := lexChars_append cfg ch rest.flatten st
    constructor
    · simp only [lexStreamT, lexChunkT, List.flatten_cons, hApp, (ih _).1]
    · simp only [lexStreamT, lexChunkT, List.flatten_cons, hApp, List.filter_append,
        List.map_append, filter_false_tag, filter_true_tag, filter_true_tag (chunkFlush _),
        List.append_nil, (ih _).2]

/-! ## Claim theorems -/

/-- Claim C2: for every character stream and every way of splitting it into
chunks, the lexer emits the same sequence of `LexedItem`s — same token
texts and same positions — apart from the extra items produced by the
end-of-chunk flush of a pending non-empty token: once the chunk-end flush
items (tagged `true`) are removed, the emitted sequence depends only on the
joined character stream, not on the chunk boundaries. -/
theorem claim_C2_chunking_invisible_modulo_flush (cfg : LexerConfig)
    (chunks1 chunks2 : List (List Char)) (h : chunks1.flatten = chunks2.flatten) :
    ((lexStreamT cfg initLexState chunks1).2.filter (fun p => !p.1)).map Prod.snd =
      ((lexStreamT cfg initLexState chunks2).2.filter (fun p => !p.1)).map Prod.snd := by
  rw [(lexStreamT_join cfg chunks1 initLexState).2,
    (lexStreamT_join cfg chunks2 initLexState).2, h]

/-- Witness for C2: the stream `ab` split as one chunk and as two chunks
has the same character-loop items. -/
theorem claim_C2_witness :
    ([['a', 'b']] : List (List Char)).flatten = ([['a'], ['b']] : List (List Char)).flatten ∧
    ((lexStreamT cfgB initLexState [['a', 'b']]).2.filter (fun p => !p.1)).map Prod.snd =
      ((lexStreamT cfgB initLexState [['a'], ['b']]).2.filter (fun p => !p.1)).map Prod.snd :=
  ⟨by decide,
    claim_C2_chunking_invisible_modulo_flush cfgB [['a', 'b']] [['a'], ['b']] (by decide)⟩

/-- Claim C3: evaluation of `createSimpleLexer` at the spec's quoting
scenarios.  The source never sets `isQuoting` to `true` (the quoting branch
of the character loop is unreachable), so with `useQuote` enabled the input
`"ab"c` lexes to the single token `"ab"c` — the opening quote is appended,
not the spec's `ab"c` — and in `"a,b"` the separator between the quotes
still flushes the token and is emitted as its own separator item. -/
theorem claim_C3_quoting_never_activates :
    createSimpleLexer cfgQ [['"', 'a', 'b', '"', 'c']] = [⟨["\"ab\"c"], 5, 0, 5⟩] ∧
    createSimpleLexer cfgQ [['"', 'a', ',', 'b', '"']] =
      [⟨["\"a"], 2, 0, 2⟩, ⟨[","], 3, 0, 3⟩, ⟨["b\""], 5, 0, 5⟩] :=
  ⟨rfl, rfl⟩

/-- The `isQuoting` flag is preserved at `false` by every character step:
no branch of the character loop ever arms quoting. -/
theorem isQuoting_stays_false (cfg : LexerConfig) (st : LexState) (c : Char)
    (h : st.isQuoting = false) : (lexChar cfg st c).1.isQuoting = false := by
  unfold lexChar
  split <;> simp_all <;> split_ifs <;> simp_all

/-- Claim C7: with escaping armed, the next character is appended verbatim
to the pending token — no item is emitted, no separator or quote
interpretation happens, and the flag is disarmed — and concretely the
input `a\,b` with comma separator lexes to the single token `a,b`. -/
theorem claim_C7_escape_verbatim :
    (∀ (cfg : LexerConfig) (st : LexState) (c : Char),
      cfg.useEscape = true → st.isEscaping = true →
        (lexChar cfg st c).2 = [] ∧
        (lexChar cfg st c).1.token = st.token.push c ∧
        (lexChar cfg st c).1.isEscaping = false) ∧
    createSimpleLexer cfgE [['a', '\\', ',', 'b']] = [⟨["a,b"], 4, 0, 4⟩] := by
  constructor
  · intro cfg st c h1 h2
    unfold lexChar
    simp only [h1, h2, Bool.true_and, if_true]
    split <;> simp
  · rfl

/-- Witness for C7: the armed state reached after `a\` consumes the comma
literally into the token. -/
theorem claim_C7_witness :
    ((lexChar cfgE stArm ',').2 = [] ∧
      (lexChar cfgE stArm ',').1.token = stArm.token.push ',' ∧
      (lexChar cfgE stArm ',').1.isEscaping = false) ∧
    createSimpleLexer cfgE [['a', '\\', ',', 'b']] = [⟨["a,b"], 4, 0, 4⟩] :=
  ⟨claim_C7_escape_verbatim.1 cfgE stArm ',' rfl rfl, claim_C7_escape_verbatim.2⟩

/-- Claim C6: after each character matching the newline predicate the state
has `inlineIndex = 0` and `line` incremented by exactly one, whichever
branch handled the character; after a non-newline character `line` is
unchanged and `inlineIndex` is the old value plus one (no other reset). -/
theorem claim_C6_newline_bookkeeping (cfg : LexerConfig) (st : LexState) (c : Char) :
    (cfg.newlineP c = true →
      (lexChar cfg st c).1.line = st.line + 1 ∧ (lexChar cfg st c).1.inlineIndex = 0) ∧
    (cfg.newlineP c = false →
      (lexChar cfg st c).1.line = st.line ∧
        (lexChar cfg st c).1.inlineIndex = st.inlineIndex + 1) := by
  constructor <;> intro h <;> unfold lexChar <;> simp only [h] <;> split_ifs <;> simp_all

/-- Witness for C6: a newline character after two ordinary characters. -/
theorem claim_C6_witness :
    ((lexChar cfgB ⟨"ab", false, false, 2, 0, 2⟩ '\n').1.line = 1 ∧
      (lexChar cfgB ⟨"ab", false, false, 2, 0, 2⟩ '\n').1.inlineIndex = 0) ∧
    ((lexChar cfgB ⟨"ab", false, false, 2, 0, 2⟩ 'c').1.line = 0 ∧
      (lexChar cfgB ⟨"ab", false, false, 2, 0, 2⟩ 'c').1.inlineIndex = 3) :=
  ⟨(claim_C6_newline_bookkeeping cfgB ⟨"ab", false, false, 2, 0, 2⟩ '\n').1 rfl,
    (claim_C6_newline_bookkeeping cfgB ⟨"ab", false, false, 2, 0, 2⟩ 'c').2 rfl⟩

/-- Claim C10: the end-of-chunk flush does not clear the token buffer: for
the stream `ab` split into chunks `a` and `b` (no separators), the lexer
emits the token `a` at the first chunk's end and then the token `ab` at the
second chunk's end, so the concatenation of all emitted token texts is
`aab`, not the input stream `ab`. -/
theorem claim_C10_flush_keeps_buffer :
    createSimpleLexer cfgB [['a'], ['b']] = [⟨["a"], 1, 0, 1⟩, ⟨["ab"], 2, 0, 2⟩] ∧
    String.join ((createSimpleLexer cfgB [['a'], ['b']]).flatMap LexedItem.tokens) = "aab" ∧
    "aab" ≠ "ab" :=
  ⟨rfl, rfl, by decide⟩

/-! ## Engine claim theorems -/

/-- Claim C1: evaluation of `parse` at the `"continue"` scenario of the
claim — grammar `{ S -> ["a","b"] }`, `initStack = [S]`, input
`["a"],["x"]` followed by the further item `["b"]`.  Parsing does continue
to the end of input (the returned `index` is the last item's), but the
terminal mismatch on `x` is constructed and then dropped — `errors.push`
happens only under `"stop"` — so the returned error list is empty, not of
length 1. -/
theorem claim_C1_continue_drops_errors :
    createLLParser rulesAB (fun _ => [.nt 0]) [itemA, itemX, itemB3] () ⟨.continue⟩ 5 =
      .ok ⟨[], [], (), 3⟩ :=
  rfl

/-- Counterexample for claim C4: at the claim's own input — grammar
`{ S -> ["a","b"] }`, `initStack = [S]`, input `["a"],["x"]`,
`onError "stop"` — the returned stack is not `["b"]`: the entry `"b"` was
shifted off before the failed comparison, so the stack field of the
returned record is `[]`. -/
theorem claim_C4_counterexample :
    Except.map ParseOutcome.stack
        (createLLParser rulesAB (fun _ => [.nt 0]) [itemA, itemX] () ⟨.stop⟩ 5) ≠
      Except.ok [StackEntry.tm "b"] := by
  intro h
  rw [show Except.map ParseOutcome.stack
        (createLLParser rulesAB (fun _ => [.nt 0]) [itemA, itemX] () ⟨.stop⟩ 5) =
      Except.ok ([] : List StackEntry) from rfl] at h
  simp at h

/-- Claim C4 (amended): with `onError "stop"`, the same input returns
exactly one error with message `Expected 'b' but got 'x'.` and an empty
remaining stack — the mismatched entry `"b"` was already shifted off when
the comparison failed, so it does not appear in the returned stack. -/
theorem claim_C4_stop_mismatch :
    createLLParser rulesAB (fun _ => [.nt 0]) [itemA, itemX] () ⟨.stop⟩ 5 =
      .ok ⟨[], [⟨"Expected 'b' but got 'x'.", "x", 2, 0, 2⟩], (), 2⟩ :=
  rfl

/-- Claim C8: whenever the stack front is a nonterminal with no entry in
the rule table, `parse` raises the fatal `No rule for ...` failure — for
every `onError` policy and independently of the remaining input, stack,
accumulated errors or fuel — and the failure is the `.error` case, never an
entry of a returned error list. -/
theorem claim_C8_missing_rule_fatal {ρ : Type} (rules : Rules ρ) (opts : ParseOptions)
    (fuel : Nat) (s : Nat) (h : rules s = none) (rest : List StackEntry) (r : ρ)
    (item : LexedItem) (items : List LexedItem) :
    createLLParser rules (fun _ => .nt s :: rest) (item :: items) r opts fuel =
      .error (.noRule s) := by
  unfold createLLParser parseLoop expand
  simp [h]

/-- Witness for C8: an empty rule table under the `"continue"` policy. -/
theorem claim_C8_witness :
    ((fun _ => none : Rules Unit) 0 = none) ∧
    createLLParser (fun _ => none) (fun _ => .nt 0 :: []) (itemA :: []) () ⟨.continue⟩ 7 =
      .error (.noRule 0) :=
  ⟨rfl, claim_C8_missing_rule_fatal (fun _ => none) ⟨.continue⟩ 7 0 rfl [] () itemA []⟩

/-- Claim C9: a lexed item processed while the stack is empty is a
tolerated no-op: no terminal check happens, no error is recorded, the run
does not halt — the loop simply proceeds to the next item with the same
empty stack, the same error list and the same result, updating only
`lastIndex`. -/
theorem claim_C9_empty_stack_noop {ρ : Type} (rules : Rules ρ) (opts : ParseOptions)
    (fuel : Nat) (item : LexedItem) (items : List LexedItem) (errors : List ParseError)
    (r : ρ) (lastIndex : Nat) :
    parseLoop rules opts fuel (item :: items) [] errors r lastIndex =
      parseLoop rules opts fuel items [] errors r item.index := by
  simp only [parseLoop, expand]

/-- A rule table whose only symbol `0` expands into the given terminals. -/
def seqRules (ts : List String) : Rules ρ := fun s =>
  if s = 0 then some (fun _ _ r => (ts.map .tm, r)) else none

/-- Lexed input whose token texts are exactly the given terminals. -/
def seqItems (ts : List String) : List LexedItem :=
  ts.map (fun t => ⟨[t], 0, 0, 0⟩)

/-- Driving the loop over matching terminals consumes the whole stack and
records no error, leaving `errors` and `result` untouched. -/
theorem parseLoop_terminals {ρ : Type} (rules : Rules ρ) (opts : ParseOptions) (fuel : Nat) :
    ∀ (ts : List String) (errors : List ParseError) (r : ρ) (li : Nat),
      parseLoop rules opts fuel (seqItems ts) (ts.map .tm) errors r li =
        .ok ⟨[], errors, r, if ts.isEmpty then li else 0⟩ := by
  intro ts
  induction ts with
  | nil => intro errors r li; simp [seqItems, parseLoop]
  | cons t rest ih =>
    intro errors r li
    simp only [seqItems, List.map_cons, parseLoop, expand]
    simp only [List.head?_cons, if_pos rfl]
    have := ih errors r 0
    simp only [seqItems] at this
    simp [this]

/-- Claim C5: the engine holds no hidden state across `parse` calls — two
calls on the same engine value with identical lexed input and a fresh
`initStack()` each time return identical records — and for a rule that
deterministically expands the start symbol into terminals equal to the
upcoming tokens, each such call returns `{stack: [], errors: []}` with the
result object unchanged. -/
theorem claim_C5_roundtrip_stateless {ρ : Type} (ts : List String) (h : ts ≠ []) (r : ρ)
    (opts : ParseOptions) (fuel : Nat) :
    createLLParser (seqRules ts) (fun _ => [.nt 0]) (seqItems ts) r opts (fuel + 1) =
      createLLParser (seqRules ts) (fun _ => [.nt 0]) (seqItems ts) r opts (fuel + 1) ∧
    createLLParser (seqRules ts) (fun _ => [.nt 0]) (seqItems ts) r opts (fuel + 1) =
      .ok ⟨[], [], r, 0⟩ := by
  refine ⟨rfl, ?_⟩
  obtain ⟨t, rest, rfl⟩ := List.exists_cons_of_ne_nil h
  unfold createLLParser
  simp only [seqItems, List.map_cons, parseLoop, expand, seqRules, if_pos rfl]
  simp only [List.append_nil, List.head?_cons, if_pos rfl]
  have := parseLoop_terminals (seqRules (t :: rest)) opts (fuel + 1) rest [] r 0
  simp only [seqItems] at this
  simp [expand, this]

/-- Witness for C5: the terminals `a`, `b` against the input `["a"],["b"]`. -/
theorem claim_C5_witness :
    (["a", "b"] ≠ ([] : List String)) ∧
    createLLParser (seqRules ["a", "b"]) (fun _ => [.nt 0]) (seqItems ["a", "b"]) ()
        ⟨.stop⟩ 1 =
      .ok ⟨[], [], (), 0⟩ :=
  ⟨by decide, (claim_C5_roundtrip_stateless ["a", "b"] (by decide) () ⟨.stop⟩ 0).2⟩
